import Mathlib

/-!
Verification of the SoapLibrary keyword library
(src/SoapLibrary/SoapLibrary.py).

Shallow embedding. lxml element trees are modeled by `XmlNode`; Python
lists/dicts/strings produced by the conversion keyword by `PyVal`; the
`requests` response object by `Response`; the library instance state
(`self.response_obj`) by the structure `SoapLibrary`. External
collaborators (the zeep transport, the lxml parser) are passed in as
explicit function arguments, since the library only calls through them.
Fallible Python code (raised exceptions) is modeled with `Except String`.
-/

/-- An lxml element: its tag string (lxml uses Clark notation, a
namespaced tag reads "{ns}local"), its text content (`element.text`,
which is `None` or a string in Python), and its ordered child elements.
Tail text is never consulted by the library, so it is not modeled. -/
inductive XmlNode : Type where
  | elem (tag : String) (text : Option String) (children : List XmlNode)

def XmlNode.tag : XmlNode → String
  | .elem t _ _ => t

def XmlNode.text : XmlNode → Option String
  | .elem _ tx _ => tx

def XmlNode.children : XmlNode → List XmlNode
  | .elem _ _ c => c

mutual

/-- Models `xml.xpath("//*[name()='tag']")` as built by
`_replace_xpath_by_local_name`: every element of the tree (the context
root included) whose name matches, in document order (preorder). -/
def findByName (name : String) : XmlNode → List XmlNode
  | .elem t tx c =>
    (if t = name then [XmlNode.elem t tx c] else []) ++ findByNameL name c

def findByNameL (name : String) : List XmlNode → List XmlNode
  | [] => []
  | x :: xs => findByName name x ++ findByNameL name xs

end

/-- Python list indexing `xs[i]`: a negative index wraps around from the
end; an index out of range raises IndexError. -/
def pyIndex {α : Type} (xs : List α) (i : Int) : Except String α :=
  let j : Int := if i < 0 then i + xs.length else i
  if 0 ≤ j then
    match xs[j.toNat]? with
    | some a => Except.ok a
    | none => Except.error "IndexError: list index out of range"
  else Except.error "IndexError: list index out of range"

/-- Embeds `get_data_from_xml_tag` (keyword "Get Data From XML By Tag").
`index` is the keyword's 1-based index argument, an arbitrary integer.
The source's `isinstance(data_list, (float, int))` branch is unreachable
here: an xpath of the form `//*[name()=...]` always evaluates to a
node-set, never a number, so `data_list` is always a list. The zero- and
multiple-match log lines are warnings only; the code then evaluates
`data_list[new_index].text` regardless, which this embedding performs
through `pyIndex`. The multi-tag list form of the `tag` argument
(`_parse_xpath` concatenating locators) is not exercised by the claims
and is not modeled; `tag` is a single tag name. -/
def get_data_from_xml_tag (xml : XmlNode) (tag : String) (index : Int) :
    Except String (Option String) :=
  let new_index := index - 1
  let data_list := findByName tag xml
  match pyIndex data_list new_index with
  | Except.ok el => Except.ok el.text
  | Except.error e => Except.error e

mutual

/-- Rewrites the text of the elements matching `name`, threading a
running match counter `k` in document order: a matching element at
overall match position `i` gets text `f i oldText`. Instantiated below
with a constant `f` for replace-all tag edits and with an
equality-guarded `f` for single-occurrence edits; both model the
`element.text = value` assignments of `edit_xml`. -/
def mapMatch (name : String) (f : Nat → Option String → Option String) :
    Nat → XmlNode → XmlNode × Nat
  | k, .elem t tx c =>
    if t = name then
      let r := mapMatchL name f (k + 1) c
      (XmlNode.elem t (f k tx) r.1, r.2)
    else
      let r := mapMatchL name f k c
      (XmlNode.elem t tx r.1, r.2)

def mapMatchL (name : String) (f : Nat → Option String → Option String) :
    Nat → List XmlNode → List XmlNode × Nat
  | k, [] => ([], k)
  | k, x :: xs =>
    let r := mapMatch name f k x
    let r2 := mapMatchL name f r.2 xs
    (r.1 :: r2.1, r2.2)

end

/-- The `repeated_tags` argument of `edit_xml`: the string `'All'`
(the default), or a string that `int()` parses to an integer occurrence
number. (Any other string would make the source's `int(repeated_tags)`
raise ValueError; those inputs are outside the claims and not modeled.) -/
inductive RepTags : Type where
  | all
  | num (i : Int)
deriving DecidableEq

/-- One iteration of the `for key, value in new_values_dict.items()` loop
body of `edit_xml`. If the namespace-agnostic locator for `key` matches
nothing, the source logs a warning and `continue`s (the tree is
unchanged). Otherwise `count` matches are found; when
`repeated_tags == 'All' or count < 2` every match's text is set to
`value` (the source's `for i in range(count)` loop), and otherwise the
single element `xml.xpath(xpath)[int(repeated_tags)]` — Python list
indexing, hence 0-based with negative wraparound — gets the new text. -/
def editPair (xml : XmlNode) (key value : String) (repeated_tags : RepTags) :
    Except String XmlNode :=
  let found := findByName key xml
  if found.length = 0 then
    Except.ok xml
  else
    let count := found.length
    match repeated_tags with
    | RepTags.all => Except.ok (mapMatch key (fun _ _ => some value) 0 xml).1
    | RepTags.num i =>
      if count < 2 then
        Except.ok (mapMatch key (fun _ _ => some value) 0 xml).1
      else
        let j : Int := if i < 0 then i + count else i
        if 0 ≤ j ∧ j < (count : Int) then
          Except.ok
            (mapMatch key
              (fun n tx => if n = j.toNat then some value else tx) 0 xml).1
        else Except.error "IndexError: list index out of range"

/-- Embeds the loop of `edit_xml` (keyword "Edit XML Request") over the
parsed input tree. `new_values` is the `new_values_dict` mapping in its
(insertion-order) iteration order; the source's
`isinstance(new_values_dict, dict)` usage check is discharged by typing.
File reading, serialization and the final `_save_to_file` are I/O at the
boundary: the keyword writes `etree.tostring` of exactly the tree this
function returns, and returns the new file path. -/
def edit_xml (xml : XmlNode) (new_values : List (String × String))
    (repeated_tags : RepTags) : Except String XmlNode :=
  match new_values with
  | [] => Except.ok xml
  | (key, value) :: rest =>
    match editPair xml key value repeated_tags with
    | Except.ok xml2 => edit_xml xml2 rest repeated_tags
    | Except.error e => Except.error e

/-- A Python value as produced by `convert_response_dict`: a string, a
list, or a dict. A dict is an insertion-ordered association list with
unique keys, which is exactly how CPython dicts iterate. -/
inductive PyVal : Type where
  | str (s : String)
  | list (l : List PyVal)
  | dict (d : List (String × PyVal))

/-- Python dict lookup `key in result` / `result[key]` on the ordered
association list (keys are unique by construction in `dictSet`). -/
def dictFind (d : List (String × PyVal)) (key : String) : Option PyVal :=
  match d with
  | [] => none
  | (k, v) :: rest => if k = key then some v else dictFind rest key

/-- Python dict assignment `result[key] = value`: an existing key keeps
its position and gets the new value; a new key is appended at the end. -/
def dictSet (d : List (String × PyVal)) (key : String) (value : PyVal) :
    List (String × PyVal) :=
  match d with
  | [] => [(key, value)]
  | (k, v) :: rest =>
    if k = key then (k, value) :: rest else (k, v) :: dictSet rest key value

/-- Python's `obj.copy()` as called by `convert_response_dict` on a
stored dict value: `dict.copy()` and `list.copy()` exist (shallow
copies, which in this immutable model are the value itself), but `str`
has no `copy` attribute, so `result[key].copy()` on a stored string
raises AttributeError. -/
def pyCopy : PyVal → Except String PyVal
  | PyVal.str _ =>
    Except.error "AttributeError: 'str' object has no attribute 'copy'"
  | PyVal.list l => Except.ok (PyVal.list l)
  | PyVal.dict d => Except.ok (PyVal.dict d)

/-- Models `element.tag.split('}')[1] if '}' in element.tag else
element.tag`: the segment of the characters strictly between the first
`}` and the next `}` (or the end), i.e. Python's second `split` chunk. -/
def splitSecondChunk (sep : Char) (cs : List Char) : List Char :=
  match cs with
  | [] => []
  | a :: rest => if a = sep then List.takeWhile (fun c => ¬ c = sep) rest
                 else splitSecondChunk sep rest

def localName (tag : String) : String :=
  if tag.data.contains (Char.ofNat 125) then
    String.mk (splitSecondChunk (Char.ofNat 125) tag.data)
  else tag

/-- Python truthiness of `element.text and element.text.strip()`: true
iff the text is present and holds at least one non-whitespace character
(`None` and `""` are falsy, and so is an all-whitespace string after
`strip`). Whitespace here is the ASCII whitespace Python strips. -/
def pyIsSpace (c : Char) : Bool :=
  c = ' ' ∨ c = '\t' ∨ c = '\n' ∨ c = '\r' ∨ c = Char.ofNat 11 ∨ c = Char.ofNat 12

def textIsTruthy : Option String → Bool
  | none => false
  | some s => s.data.any (fun c => ¬ pyIsSpace c)

mutual

/-- Embeds `convert_response_dict` (keyword "Convert XML Response to
Dictionary"): iterate the direct children in document order; the key is
the namespace-stripped local name; the value is the text when it is
truthy after `strip`, else the recursive conversion of the child; a
repeated key appends when the stored value is already a list, and
otherwise evaluates `result[key].copy()` — which raises AttributeError
when the stored value is a string — before storing `[tempvalue, value]`. -/
def convert_response_dict (xml_etree : XmlNode) :
    Except String (List (String × PyVal)) :=
  match xml_etree with
  | XmlNode.elem _ _ c => convertChildren c []

def convertChildren (elements : List XmlNode)
    (result : List (String × PyVal)) : Except String (List (String × PyVal)) :=
  match elements with
  | [] => Except.ok result
  | element :: rest =>
    let key := localName element.tag
    match
      (if textIsTruthy element.text then
        Except.ok (PyVal.str (element.text.getD ""))
      else
        match convert_response_dict element with
        | Except.ok d => Except.ok (PyVal.dict d)
        | Except.error e => Except.error e) with
    | Except.error e => Except.error e
    | Except.ok value =>
      match dictFind result key with
      | none => convertChildren rest (dictSet result key value)
      | some (PyVal.list l) =>
        convertChildren rest (dictSet result key (PyVal.list (l ++ [value])))
      | some old =>
        match pyCopy old with
        | Except.error e => Except.error e
        | Except.ok tempvalue =>
          convertChildren rest
            (dictSet result key (PyVal.list [tempvalue, value]))

end

/-- The fields of the `requests` HTTP response object that the library
reads: `status_code`, `reason`, and the body `text`. -/
structure Response : Type where
  status_code : Nat
  reason : String
  text : String

/-- The library instance state set up in `SoapLibrary.__init__`:
`self.url` and `self.response_obj` (`self.client` is the external zeep
client, reached only through the oracles below and not itself modeled). -/
structure SoapLibrary : Type where
  url : Option String
  response_obj : Option Response

/-- Embeds `_save_response_object`: logs the status code and stores the
response object for `get_last_response_object`. -/
def save_response_object (self : SoapLibrary) (response : Response) :
    SoapLibrary :=
  { self with response_obj := some response }

/-- Embeds `get_last_response_object` (keyword "Get Last Response
Object"): returns `self.response_obj`. -/
def get_last_response_object (self : SoapLibrary) : Option Response :=
  self.response_obj

/-- Embeds `_check_and_print_response`: when `status` is `None` and the
status code differs from 200, raises
`AssertionError('Request Error! Status Code: %s! Reason: %s' % ...)`;
otherwise only logs. -/
def check_and_print_response (response : Response) (status : Option String) :
    Except String Unit :=
  if status = none ∧ ¬ response.status_code = 200 then
    Except.error ("Request Error! Status Code: " ++
      toString response.status_code ++ "! Reason: " ++ response.reason)
  else Except.ok ()

/-- Embeds `call_soap_method_xml` (keyword "Call SOAP Method With XML").
`parse` is the external lxml parser (both `etree.fromstring` on the
request text and the utf-8 parse of `_parse_from_unicode` on the
response body); `post` is `self.client.transport.post_xml`, which never
raises in the claims' scope and yields the transport response;
`raw_text_xml` is the content of the request file read by
`_convert_xml_to_raw_text`. Returns the updated instance state paired
with the keyword's outcome. -/
def call_soap_method_xml (parse : String → Except String XmlNode)
    (post : XmlNode → Response) (self : SoapLibrary)
    (raw_text_xml : String) (status : Option String) :
    SoapLibrary × Except String XmlNode :=
  match parse raw_text_xml with
  | Except.error e => (self, Except.error e)
  | Except.ok xml_obj =>
    let response := post xml_obj
    let self2 := save_response_object self response
    match parse response.text with
    | Except.error e => (self2, Except.error e)
    | Except.ok etree_response =>
      match check_and_print_response response status with
      | Except.error e => (self2, Except.error e)
      | Except.ok _ => (self2, Except.ok etree_response)

/-- Embeds `call_soap_method_string_xml` (keyword "Call SOAP Method With
String XML"): identical pipeline to `call_soap_method_xml` except that
the envelope text is the `string_xml` argument itself. -/
def call_soap_method_string_xml (parse : String → Except String XmlNode)
    (post : XmlNode → Response) (self : SoapLibrary)
    (string_xml : String) (status : Option String) :
    SoapLibrary × Except String XmlNode :=
  match parse string_xml with
  | Except.error e => (self, Except.error e)
  | Except.ok xml_obj =>
    let response := post xml_obj
    let self2 := save_response_object self response
    match parse response.text with
    | Except.error e => (self2, Except.error e)
    | Except.ok etree_response =>
      match check_and_print_response response status with
      | Except.error e => (self2, Except.error e)
      | Except.ok _ => (self2, Except.ok etree_response)

/-- Embeds `call_soap_method` (keyword "Call SOAP Method"): `method` is
the outcome of invoking `getattr(self.client.service, name)(*args)` on
the external zeep client (`Except.error e` standing for a raised
exception whose `str()` is `e`). With `status` unset the call is made
bare, so an exception propagates; with `status` set the call is wrapped
in `try/except` and the exception message is returned as a string. The
instance state is returned unchanged: this keyword never calls
`_save_response_object` (its own docstring says the response object is
not stored). -/
def call_soap_method (self : SoapLibrary) (method : Except String PyVal)
    (status : Option String) : SoapLibrary × Except String PyVal :=
  match status with
  | none => (self, method)
  | some _ =>
    match method with
    | Except.ok response => (self, Except.ok response)
    | Except.error e => (self, Except.ok (PyVal.str e))

/-- The RFC 4648 base64 alphabet as byte values: `A..Z`, `a..z`, `0..9`,
`+`, `/` (index 62 is `+` = 43 and index 63 is `/` = 47). -/
def b64alphabet (i : Nat) : Nat :=
  if i < 26 then 65 + i
  else if i < 52 then 97 + (i - 26)
  else if i < 62 then 48 + (i - 52)
  else if i = 62 then 43
  else 47

/-- Inverse of the base64 alphabet: `none` on a byte outside it. -/
def b64index (c : Nat) : Option Nat :=
  if 65 ≤ c ∧ c ≤ 90 then some (c - 65)
  else if 97 ≤ c ∧ c ≤ 122 then some (26 + (c - 97))
  else if 48 ≤ c ∧ c ≤ 57 then some (52 + (c - 48))
  else if c = 43 then some 62
  else if c = 47 then some 63
  else none

/-- Modelled from the behavior of the Python standard library
`base64.b64encode` (the encoder whose output `decode_base64` is
specified against; it is not part of this repository): bytes in, base64
bytes out, three input bytes per four alphabet characters, `=` (byte 61)
padding for a trailing group of one or two bytes. -/
def b64encode : List Nat → List Nat
  | [] => []
  | [b1] => [b64alphabet (b1 / 4), b64alphabet (b1 % 4 * 16), 61, 61]
  | [b1, b2] => [b64alphabet (b1 / 4), b64alphabet (b1 % 4 * 16 + b2 / 16),
                 b64alphabet (b2 % 16 * 4), 61]
  | b1 :: b2 :: b3 :: rest =>
    b64alphabet (b1 / 4) :: b64alphabet (b1 % 4 * 16 + b2 / 16) ::
    b64alphabet (b2 % 16 * 4 + b3 / 64) :: b64alphabet (b3 % 64) ::
    b64encode rest

/-- Decodes four-character base64 groups, with `=` padding allowed only
in the final group; anything else raises binascii.Error (including a
character count that is not a multiple of four, the check Python applies
after discarding non-alphabet characters). -/
def b64decodeGroups : List Nat → Except String (List Nat)
  | [] => Except.ok []
  | a :: b :: c :: d :: rest =>
    match b64index a, b64index b with
    | some x, some y =>
      if c = 61 then
        (if d = 61 ∧ rest = [] then Except.ok [x * 4 + y / 16]
         else Except.error "binascii.Error: Invalid base64-encoded string")
      else
        (match b64index c with
         | some z =>
           if d = 61 then
             (if rest = [] then Except.ok [x * 4 + y / 16, y % 16 * 16 + z / 4]
              else Except.error "binascii.Error: Invalid base64-encoded string")
           else
             (match b64index d with
              | some w =>
                (match b64decodeGroups rest with
                 | Except.ok tl =>
                   Except.ok ((x * 4 + y / 16) :: (y % 16 * 16 + z / 4) ::
                     (z % 4 * 64 + w) :: tl)
                 | Except.error e => Except.error e)
              | none =>
                Except.error "binascii.Error: Invalid base64-encoded string")
         | none => Except.error "binascii.Error: Invalid base64-encoded string")
    | _, _ => Except.error "binascii.Error: Invalid base64-encoded string"
  | _ => Except.error "binascii.Error: Invalid base64-encoded string"

/-- Modelled from the Python standard library `base64.b64decode` with
its default `validate=False` (the call made by `decode_base64`):
characters outside the alphabet and padding are discarded first, then
the remaining characters are decoded in groups of four. -/
def b64decode (s : List Nat) : Except String (List Nat) :=
  b64decodeGroups (s.filter (fun c => (b64index c).isSome || c = 61))

/-- The UTF-8 encoding of one code point (as the Python `str.encode`
used to produce the bytes that `decode_base64` is specified to
round-trip). -/
def utf8EncodeChar (n : Nat) : List Nat :=
  if n < 128 then [n]
  else if n < 2048 then [192 + n / 64, 128 + n % 64]
  else if n < 65536 then [224 + n / 4096, 128 + n / 64 % 64, 128 + n % 64]
  else [240 + n / 262144, 128 + n / 4096 % 64, 128 + n / 64 % 64, 128 + n % 64]

def utf8Encode : List Char → List Nat
  | [] => []
  | c :: cs => utf8EncodeChar c.toNat ++ utf8Encode cs

/-- Tests whether an optional next byte is a UTF-8 continuation byte
(0x80-0xBF). -/
def isContB (o : Option Nat) : Bool :=
  match o with
  | some b2 => if 128 ≤ b2 ∧ b2 < 192 then true else false
  | none => false

/-- The six payload bits of a continuation byte. -/
def contVal (o : Option Nat) : Nat :=
  match o with
  | some b2 => b2 - 128
  | none => 0

/-- Modelled from Python `bytes.decode('utf-8', 'ignore')` as called by
`decode_base64`: well-formed sequences decode to their code point, and
malformed leading bytes are skipped instead of raising, the `'ignore'`
error handler. (On malformed input CPython's exact resynchronization may
skip a slightly different number of bytes; the claims only exercise
well-formed sequences.) This function never fails, matching `'ignore'`. -/
def utf8DecodeIgnore : List Nat → List Char
  | [] => []
  | b :: rest =>
    if b < 128 then Char.ofNat b :: utf8DecodeIgnore rest
    else if 194 ≤ b ∧ b < 224 then
      if isContB rest.head? then
        Char.ofNat ((b - 192) * 64 + contVal rest.head?) ::
          utf8DecodeIgnore rest.tail
      else utf8DecodeIgnore rest
    else if 224 ≤ b ∧ b < 240 then
      if isContB rest.head? && isContB rest.tail.head? then
        Char.ofNat ((b - 224) * 4096 + contVal rest.head? * 64 +
          contVal rest.tail.head?) :: utf8DecodeIgnore rest.tail.tail
      else utf8DecodeIgnore rest
    else if 240 ≤ b ∧ b < 245 then
      if isContB rest.head? && isContB rest.tail.head? &&
          isContB rest.tail.tail.head? then
        Char.ofNat ((b - 240) * 262144 + contVal rest.head? * 4096 +
          contVal rest.tail.head? * 64 + contVal rest.tail.tail.head?) ::
          utf8DecodeIgnore rest.tail.tail.tail
      else utf8DecodeIgnore rest
    else utf8DecodeIgnore rest
termination_by l => l.length
decreasing_by all_goals (simp [List.length_tail]; try omega)

/-- Embeds `decode_base64` (keyword "Decode Base64"):
`base64.b64decode(response).decode('utf-8', 'ignore')`. The input is the
byte sequence of the base64 text and the result is the character
sequence of the decoded Python string. -/
def decode_base64 (response : List Nat) : Except String (List Char) :=
  match b64decode response with
  | Except.ok response_decode => Except.ok (utf8DecodeIgnore response_decode)
  | Except.error e => Except.error e

/-- Texts produced for a match list by a position-dependent rewrite `f`
starting at match position `k` (specification device for `mapMatch`). -/
def textsFrom (f : Nat → Option String → Option String) :
    Nat → List XmlNode → List (Option String)
  | _, [] => []
  | k, m :: ms => f k m.text :: textsFrom f (k + 1) ms

/-- Concrete tree `<a><b>1</b><b>2</b><c>3</c></a>` from the spec's
conversion example. -/
def treeBBC : XmlNode :=
  XmlNode.elem "a" none
    [XmlNode.elem "b" (some "1") [], XmlNode.elem "b" (some "2") [],
     XmlNode.elem "c" (some "3") []]

/-- Concrete tree `<a><b>1</b><b>2</b><b>3</b></a>` (tag `b` three
times). -/
def treeBBB : XmlNode :=
  XmlNode.elem "a" none
    [XmlNode.elem "b" (some "1") [], XmlNode.elem "b" (some "2") [],
     XmlNode.elem "b" (some "3") []]

/-- Concrete tree `<a><b>t</b></a>` (tag `b` once). -/
def treeB1 : XmlNode :=
  XmlNode.elem "a" none [XmlNode.elem "b" (some "t") []]

/-- A concrete request envelope. -/
def reqNode : XmlNode := XmlNode.elem "req" none []

/-- A concrete response body tree. -/
def respNode : XmlNode := XmlNode.elem "resp" none []

/-- A concrete parser oracle: parses the two well-formed documents used
by the witnesses and fails on anything else, as `etree.fromstring` does
on malformed input. -/
def parseOracle (s : String) : Except String XmlNode :=
  if s = "<req/>" then Except.ok reqNode
  else if s = "<resp/>" then Except.ok respNode
  else Except.error "XMLSyntaxError"

/-- A transport oracle answering HTTP 500 with a well-formed XML body. -/
def post500 (_ : XmlNode) : Response :=
  { status_code := 500, reason := "Internal Server Error", text := "<resp/>" }

/-- A transport oracle answering HTTP 200 with a well-formed XML body. -/
def post200 (_ : XmlNode) : Response :=
  { status_code := 200, reason := "OK", text := "<resp/>" }

/-- A transport oracle answering HTTP 200 with a body that is not
well-formed XML. -/
def postBadBody (_ : XmlNode) : Response :=
  { status_code := 200, reason := "OK", text := "this is not xml" }

/-- Whether a keyword outcome is a normal return rather than a raised
exception. -/
def isOk {α : Type} : Except String α → Bool
  | Except.ok _ => true
  | Except.error _ => false

/-- `treeBBB` after replacing every `b` text with "9". -/
def treeBBBall9 : XmlNode :=
  XmlNode.elem "a" none
    [XmlNode.elem "b" (some "9") [], XmlNode.elem "b" (some "9") [],
     XmlNode.elem "b" (some "9") []]

/-- `treeBBB` after replacing only the `b` occurrence at 0-based
position 1 with "9". -/
def treeBBBset1 : XmlNode :=
  XmlNode.elem "a" none
    [XmlNode.elem "b" (some "1") [], XmlNode.elem "b" (some "9") [],
     XmlNode.elem "b" (some "3") []]

theorem textsFrom_append (f : Nat → Option String → Option String)
    (k : Nat) (l1 l2 : List XmlNode) :
    textsFrom f k (l1 ++ l2) = textsFrom f k l1 ++ textsFrom f (k + l1.length) l2 := by
  induction l1 generalizing k with
  | nil => simp [textsFrom]
  | cons m ms ih =>
    have h : k + (ms.length + 1) = k + 1 + ms.length := by omega
    simp only [List.cons_append, textsFrom, List.length_cons, List.append_eq]
    rw [ih (k + 1), h]

mutual

theorem mapMatch_count (name : String) (f : Nat → Option String → Option String)
    (k : Nat) (x : XmlNode) :
    (mapMatch name f k x).2 = k + (findByName name x).length := by
  cases x with
  | elem t tx c =>
    by_cases h : t = name
    · have hc := mapMatchL_count name f (k + 1) c
      simp [mapMatch, findByName, h, hc]
      omega
    · have hc := mapMatchL_count name f k c
      simp [mapMatch, findByName, h, hc]

theorem mapMatchL_count (name : String) (f : Nat → Option String → Option String)
    (k : Nat) (l : List XmlNode) :
    (mapMatchL name f k l).2 = k + (findByNameL name l).length := by
  cases l with
  | nil => simp [mapMatchL, findByNameL]
  | cons x xs =>
    have h1 := mapMatch_count name f k x
    have h2 := mapMatchL_count name f (k + (findByName name x).length) xs
    simp only [mapMatchL, findByNameL, List.length_append, h1, h2]
    omega

end

mutual

theorem mapMatch_texts (name : String) (f : Nat → Option String → Option String)
    (k : Nat) (x : XmlNode) :
    (findByName name (mapMatch name f k x).1).map XmlNode.text =
      textsFrom f k (findByName name x) := by
  cases x with
  | elem t tx c =>
    by_cases h : t = name
    · have hc := mapMatchL_texts name f (k + 1) c
      simp [mapMatch, findByName, h, textsFrom, XmlNode.text, hc]
    · have hc := mapMatchL_texts name f k c
      simp [mapMatch, findByName, h, hc]

theorem mapMatchL_texts (name : String) (f : Nat → Option String → Option String)
    (k : Nat) (l : List XmlNode) :
    (findByNameL name (mapMatchL name f k l).1).map XmlNode.text =
      textsFrom f k (findByNameL name l) := by
  cases l with
  | nil => simp [mapMatchL, findByNameL, textsFrom]
  | cons x xs =>
    have h1 := mapMatch_texts name f k x
    have hcnt := mapMatch_count name f k x
    have h2 := mapMatchL_texts name f (k + (findByName name x).length) xs
    simp only [mapMatchL, findByNameL, List.map_append, hcnt]
    rw [h1, h2, ← textsFrom_append]

end

/-- Claim C1 (counterexample): the keyword "Call SOAP Method"
(`call_soap_method`) completes a send without storing anything in the
Last Response slot — starting from a fresh instance (empty slot), after
a successful direct operation call the slot is still empty, so
`get_last_response_object` does not return the response of that send.
This refutes the claim that all three send entry points overwrite Last
Response. -/
theorem call_soap_method_last_response_cex :
    (call_soap_method { url := none, response_obj := none }
      (Except.ok (PyVal.str "v")) none).2 = Except.ok (PyVal.str "v") ∧
    get_last_response_object
      (call_soap_method { url := none, response_obj := none }
        (Except.ok (PyVal.str "v")) none).1 = none :=
  ⟨rfl, rfl⟩

/-- Claim C1 (amended): the two XML-based send keywords
(`call_soap_method_xml` and `call_soap_method_string_xml`) overwrite the
Last Response slot with the raw response of that send, so a subsequent
`get_last_response_object` returns it; the third entry point
`call_soap_method` ("Call SOAP Method") leaves the instance state — in
particular the Last Response slot — unchanged, as its own documentation
states. -/
theorem last_response_slot_amended
    (parse : String → Except String XmlNode) (post : XmlNode → Response)
    (self : SoapLibrary) (text : String) (status : Option String)
    (xml_obj : XmlNode) (h : parse text = Except.ok xml_obj) :
    get_last_response_object
      (call_soap_method_xml parse post self text status).1
      = some (post xml_obj) ∧
    get_last_response_object
      (call_soap_method_string_xml parse post self text status).1
      = some (post xml_obj) ∧
    (∀ (method : Except String PyVal) (status2 : Option String),
      (call_soap_method self method status2).1 = self) := by
  refine ⟨?_, ?_, fun method status2 => ?_⟩
  · simp only [call_soap_method_xml, h]
    cases hp : parse (post xml_obj).text with
    | error e => simp [get_last_response_object, save_response_object]
    | ok t =>
      cases hc : check_and_print_response (post xml_obj) status with
      | error e2 => simp [get_last_response_object, save_response_object]
      | ok u => simp [get_last_response_object, save_response_object]
  · simp only [call_soap_method_string_xml, h]
    cases hp : parse (post xml_obj).text with
    | error e => simp [get_last_response_object, save_response_object]
    | ok t =>
      cases hc : check_and_print_response (post xml_obj) status with
      | error e2 => simp [get_last_response_object, save_response_object]
      | ok u => simp [get_last_response_object, save_response_object]
  · cases status2 with
    | none => rfl
    | some s =>
      cases method with
      | ok r => rfl
      | error e => rfl

/-- Witness for the amended claim C1 at a concrete parser, transport,
instance state and request. -/
theorem last_response_slot_amended_witness :
    get_last_response_object
      (call_soap_method_xml parseOracle post200
        { url := none, response_obj := none } "<req/>" none).1
      = some (post200 reqNode) ∧
    get_last_response_object
      (call_soap_method_string_xml parseOracle post200
        { url := none, response_obj := none } "<req/>" none).1
      = some (post200 reqNode) ∧
    (call_soap_method { url := none, response_obj := none }
      (Except.ok (PyVal.str "r")) (some "anything")).1
      = { url := none, response_obj := none } := by
  have h := last_response_slot_amended parseOracle post200
    { url := none, response_obj := none } "<req/>" none reqNode rfl
  exact ⟨h.1, h.2.1, h.2.2 (Except.ok (PyVal.str "r")) (some "anything")⟩

/-- Claim C4: for the XML-based send keywords, with `status` unset and an
HTTP status code other than 200 the call raises the assertion error
carrying the status code and reason phrase; with `status` set to any
value no status check occurs and the parsed response tree is returned
whatever the status code is (given, as claim C10 makes explicit, a
well-formed response body). -/
theorem status_policy_xml_sends
    (parse : String → Except String XmlNode) (post : XmlNode → Response)
    (self : SoapLibrary) (text : String) (xml_obj tree : XmlNode)
    (hreq : parse text = Except.ok xml_obj)
    (hbody : parse (post xml_obj).text = Except.ok tree) :
    (¬ (post xml_obj).status_code = 200 →
      (call_soap_method_xml parse post self text none).2 =
        Except.error ("Request Error! Status Code: " ++
          toString (post xml_obj).status_code ++ "! Reason: " ++
          (post xml_obj).reason) ∧
      (call_soap_method_string_xml parse post self text none).2 =
        Except.error ("Request Error! Status Code: " ++
          toString (post xml_obj).status_code ++ "! Reason: " ++
          (post xml_obj).reason)) ∧
    (∀ s : String,
      (call_soap_method_xml parse post self text (some s)).2 =
        Except.ok tree ∧
      (call_soap_method_string_xml parse post self text (some s)).2 =
        Except.ok tree) := by
  constructor
  · intro hcode
    constructor
    · simp [call_soap_method_xml, hreq, hbody, check_and_print_response, hcode]
    · simp [call_soap_method_string_xml, hreq, hbody,
        check_and_print_response, hcode]
  · intro s
    constructor
    · simp [call_soap_method_xml, hreq, hbody, check_and_print_response]
    · simp [call_soap_method_string_xml, hreq, hbody, check_and_print_response]

/-- Witness for claim C4: an HTTP 500 send with `status` unset fails with
the assertion message carrying "500" and the reason phrase, and the same
send with `status='anything'` returns the parsed body. -/
theorem status_policy_xml_sends_witness :
    (call_soap_method_xml parseOracle post500
      { url := none, response_obj := none } "<req/>" none).2 =
      Except.error
        "Request Error! Status Code: 500! Reason: Internal Server Error" ∧
    (call_soap_method_xml parseOracle post500
      { url := none, response_obj := none } "<req/>" (some "anything")).2 =
      Except.ok respNode := by
  have h := status_policy_xml_sends parseOracle post500
    { url := none, response_obj := none } "<req/>" reqNode respNode
    rfl rfl
  exact ⟨(h.1 (by decide)).1, (h.2 "anything").1⟩

/-- Claim C6: for "Call SOAP Method", with `status` set to any value an
exception raised by the remote operation is caught and its message is
returned as a string; with `status` unset the exception propagates
unchanged. -/
theorem call_soap_method_status_exception
    (self : SoapLibrary) (method : Except String PyVal) (e : String) :
    (∀ s : String, method = Except.error e →
      (call_soap_method self method (some s)).2 = Except.ok (PyVal.str e)) ∧
    (call_soap_method self method none).2 = method := by
  constructor
  · intro s hm
    subst hm
    rfl
  · rfl

/-- Witness for claim C6 at a concrete failing remote call. -/
theorem call_soap_method_status_exception_witness :
    (call_soap_method { url := none, response_obj := none }
      (Except.error "Server fault") (some "anything")).2
      = Except.ok (PyVal.str "Server fault") ∧
    (call_soap_method { url := none, response_obj := none }
      (Except.error "Server fault") none).2 = Except.error "Server fault" :=
  ⟨(call_soap_method_status_exception { url := none, response_obj := none }
      (Except.error "Server fault") "Server fault").1 "anything" rfl,
   (call_soap_method_status_exception { url := none, response_obj := none }
      (Except.error "Server fault") "Server fault").2⟩

/-- Claim C9: in both XML-based send keywords `_save_response_object`
runs before `_check_and_print_response`, so when the non-200 assertion
error is raised the Last Response slot has already been overwritten with
the failing response, and `get_last_response_object` afterwards returns
it. -/
theorem response_saved_before_status_check
    (parse : String → Except String XmlNode) (post : XmlNode → Response)
    (self : SoapLibrary) (text : String) (xml_obj tree : XmlNode)
    (hreq : parse text = Except.ok xml_obj)
    (hbody : parse (post xml_obj).text = Except.ok tree)
    (hcode : ¬ (post xml_obj).status_code = 200) :
    ((call_soap_method_xml parse post self text none).2 =
        Except.error ("Request Error! Status Code: " ++
          toString (post xml_obj).status_code ++ "! Reason: " ++
          (post xml_obj).reason) ∧
      get_last_response_object
        (call_soap_method_xml parse post self text none).1
        = some (post xml_obj)) ∧
    ((call_soap_method_string_xml parse post self text none).2 =
        Except.error ("Request Error! Status Code: " ++
          toString (post xml_obj).status_code ++ "! Reason: " ++
          (post xml_obj).reason) ∧
      get_last_response_object
        (call_soap_method_string_xml parse post self text none).1
        = some (post xml_obj)) := by
  constructor
  · constructor
    · simp [call_soap_method_xml, hreq, hbody, check_and_print_response, hcode]
    · simp [call_soap_method_xml, hreq, hbody, check_and_print_response,
        hcode, get_last_response_object, save_response_object]
  · constructor
    · simp [call_soap_method_string_xml, hreq, hbody,
        check_and_print_response, hcode]
    · simp [call_soap_method_string_xml, hreq, hbody,
        check_and_print_response, hcode, get_last_response_object,
        save_response_object]

/-- Witness for claim C9: after a failing HTTP 500 send, the slot holds
the failing response. -/
theorem response_saved_before_status_check_witness :
    (call_soap_method_xml parseOracle post500
      { url := none, response_obj := none } "<req/>" none).2 =
      Except.error
        "Request Error! Status Code: 500! Reason: Internal Server Error" ∧
    get_last_response_object
      (call_soap_method_xml parseOracle post500
        { url := none, response_obj := none } "<req/>" none).1
      = some (post500 reqNode) := by
  have h := response_saved_before_status_check parseOracle post500
    { url := none, response_obj := none } "<req/>" reqNode respNode
    rfl rfl (by decide)
  exact ⟨h.1.1, h.1.2⟩

/-- Claim C10: both XML-based send keywords parse the response body
before any status check, so a body that is not well-formed XML makes the
call fail with the parse error for every value of the `status` argument,
including the values that suppress the status check. -/
theorem parse_before_status_check
    (parse : String → Except String XmlNode) (post : XmlNode → Response)
    (self : SoapLibrary) (text : String) (status : Option String)
    (xml_obj : XmlNode) (e : String)
    (hreq : parse text = Except.ok xml_obj)
    (hbody : parse (post xml_obj).text = Except.error e) :
    (call_soap_method_xml parse post self text status).2 = Except.error e ∧
    (call_soap_method_string_xml parse post self text status).2 =
      Except.error e := by
  constructor
  · simp [call_soap_method_xml, hreq, hbody]
  · simp [call_soap_method_string_xml, hreq, hbody]

/-- Witness for claim C10: an HTTP 200 response with a malformed body
fails with the parse error even though `status` is set. -/
theorem parse_before_status_check_witness :
    (call_soap_method_xml parseOracle postBadBody
      { url := none, response_obj := none } "<req/>" (some "anything")).2 =
      Except.error "XMLSyntaxError" ∧
    (call_soap_method_string_xml parseOracle postBadBody
      { url := none, response_obj := none } "<req/>" (some "anything")).2 =
      Except.error "XMLSyntaxError" :=
  parse_before_status_check parseOracle postBadBody
    { url := none, response_obj := none } "<req/>" (some "anything") reqNode
    "XMLSyntaxError" rfl rfl

/-- Claim C7: a (tag, value) pair whose tag matches no element is
skipped — the tree is returned unchanged, not an error — and processing
continues with the remaining pairs, so the output file is still
produced (with only this pair the output equals the input tree). -/
theorem edit_xml_skips_unmatched_tags
    (xml : XmlNode) (key value : String) (rest : List (String × String))
    (rt : RepTags) (h : findByName key xml = []) :
    editPair xml key value rt = Except.ok xml ∧
    edit_xml xml ((key, value) :: rest) rt = edit_xml xml rest rt ∧
    edit_xml xml [(key, value)] rt = Except.ok xml := by
  have h1 : editPair xml key value rt = Except.ok xml := by
    simp [editPair, h]
  exact ⟨h1, by simp [edit_xml, h1], by simp [edit_xml, h1]⟩

/-- Witness for claim C7: tag `zz` is absent from `<a><b>t</b></a>`; the
pair is skipped and the following pair is still processed. -/
theorem edit_xml_skips_unmatched_tags_witness :
    editPair treeB1 "zz" "v" RepTags.all = Except.ok treeB1 ∧
    edit_xml treeB1 [("zz", "v"), ("b", "9")] RepTags.all =
      edit_xml treeB1 [("b", "9")] RepTags.all ∧
    edit_xml treeB1 [("zz", "v")] RepTags.all = Except.ok treeB1 :=
  edit_xml_skips_unmatched_tags treeB1 "zz" "v" [("b", "9")] RepTags.all rfl

theorem textsFrom_const (v : String) (k : Nat) (l : List XmlNode) :
    textsFrom (fun _ _ => some v) k l = List.replicate l.length (some v) := by
  induction l generalizing k with
  | nil => simp [textsFrom]
  | cons m ms ih => simp [textsFrom, List.replicate, ih]

theorem textsFrom_guard (v : String) (j k : Nat) (l : List XmlNode) :
    textsFrom (fun n tx => if n = j then some v else tx) k l =
      if k ≤ j then (l.map XmlNode.text).set (j - k) (some v)
      else l.map XmlNode.text := by
  induction l generalizing k with
  | nil => simp [textsFrom]
  | cons m ms ih =>
    by_cases hk : k = j
    · subst hk
      have hx : ¬ k + 1 ≤ k := by omega
      simp [textsFrom, ih, hx]
    · by_cases hlt : k ≤ j
      · have hx : k + 1 ≤ j := by omega
        have hs : j - k = (j - (k + 1)) + 1 := by omega
        simp [textsFrom, ih, hk, hx, hlt, hs]
      · have hx : ¬ k + 1 ≤ j := by omega
        simp [textsFrom, ih, hk, hx, hlt]

theorem editPair_all_eq (xml : XmlNode) (tag value : String) (rt : RepTags)
    (h0 : 1 ≤ (findByName tag xml).length)
    (hbr : rt = RepTags.all ∨ (findByName tag xml).length < 2) :
    editPair xml tag value rt =
      Except.ok (mapMatch tag (fun _ _ => some value) 0 xml).1 := by
  have hz : ¬ (findByName tag xml).length = 0 := by omega
  rcases hbr with hall | hlt
  · subst hall
    simp [editPair, hz]
  · cases rt with
    | all => simp [editPair, hz]
    | num i => simp [editPair, hz, hlt]

theorem editPair_num_eq (xml : XmlNode) (tag value : String) (j : Nat)
    (h2 : 2 ≤ (findByName tag xml).length)
    (hj : j < (findByName tag xml).length) :
    editPair xml tag value (RepTags.num (Int.ofNat j)) =
      Except.ok
        (mapMatch tag (fun n tx => if n = j then some value else tx) 0 xml).1 := by
  have hz : ¬ (findByName tag xml).length = 0 := by omega
  have hlt : ¬ (findByName tag xml).length < 2 := by omega
  have hcast : (Int.ofNat j) = (j : Int) := rfl
  have hneg : ¬ (Int.ofNat j) < 0 := by rw [hcast]; omega
  have hin : 0 ≤ (Int.ofNat j) ∧
      (Int.ofNat j) < ((findByName tag xml).length : Int) := by
    rw [hcast]
    constructor <;> omega
  simp only [editPair, hz, if_false, hlt, hneg, hin, and_self, if_true,
    ite_false, ite_true]
  have ht : (Int.ofNat j).toNat = j := rfl
  simp [ht]

/-- Claim C5: for a pair whose tag matches at least one element, if
`which_occurrence` is `'All'` or the match count is below 2 the edit
succeeds and the text of every matching element becomes `value`;
otherwise (a numeric occurrence `j` with at least two matches,
`j < count`) the edit succeeds and exactly the match at 0-based document
position `j` gets text `value`, the other matches keeping their text —
0-based, unlike the 1-based indexing of field lookup. -/
theorem edit_xml_occurrence_selection
    (xml : XmlNode) (tag value : String) (rt : RepTags)
    (hcount : 1 ≤ (findByName tag xml).length) :
    ((rt = RepTags.all ∨ (findByName tag xml).length < 2) →
      isOk (editPair xml tag value rt) = true ∧
      ∀ r, editPair xml tag value rt = Except.ok r →
        (findByName tag r).map XmlNode.text =
          List.replicate (findByName tag xml).length (some value)) ∧
    (∀ j : Nat, rt = RepTags.num (Int.ofNat j) →
      2 ≤ (findByName tag xml).length →
      j < (findByName tag xml).length →
      isOk (editPair xml tag value rt) = true ∧
      ∀ r, editPair xml tag value rt = Except.ok r →
        (findByName tag r).map XmlNode.text =
          ((findByName tag xml).map XmlNode.text).set j (some value)) := by
  constructor
  · intro hbr
    have he := editPair_all_eq xml tag value rt hcount hbr
    rw [he]
    refine ⟨rfl, fun r hr => ?_⟩
    have hrr : (mapMatch tag (fun _ _ => some value) 0 xml).1 = r :=
      Except.ok.inj hr
    rw [← hrr, mapMatch_texts, textsFrom_const]
  · intro j hj h2 hjlt
    subst hj
    have he := editPair_num_eq xml tag value j h2 hjlt
    rw [he]
    refine ⟨rfl, fun r hr => ?_⟩
    have hrr :
        (mapMatch tag (fun n tx => if n = j then some value else tx) 0 xml).1
          = r := Except.ok.inj hr
    rw [← hrr, mapMatch_texts, textsFrom_guard]
    simp

/-- Witness for claim C5 on `<a><b>1</b><b>2</b><b>3</b></a>`: the
`'All'` edit rewrites all three `b` texts to "9"; the occurrence-1 edit
rewrites only the middle one. -/
theorem edit_xml_occurrence_selection_witness :
    isOk (editPair treeBBB "b" "9" RepTags.all) = true ∧
    (findByName "b" treeBBBall9).map XmlNode.text =
      List.replicate (findByName "b" treeBBB).length (some "9") ∧
    isOk (editPair treeBBB "b" "9" (RepTags.num (Int.ofNat 1))) = true ∧
    (findByName "b" treeBBBset1).map XmlNode.text =
      ((findByName "b" treeBBB).map XmlNode.text).set 1 (some "9") := by
  have hall := edit_xml_occurrence_selection treeBBB "b" "9" RepTags.all
    (by decide)
  have hnum := edit_xml_occurrence_selection treeBBB "b" "9"
    (RepTags.num (Int.ofNat 1)) (by decide)
  have h1 := hall.1 (Or.inl rfl)
  have h2 := (hnum.2 1 rfl (by decide) (by decide))
  exact ⟨h1.1, h1.2 treeBBBall9 rfl, h2.1, h2.2 treeBBBset1 rfl⟩

/-- Claim C3 (counterexample): on `<a><b>t</b></a>` the tag `b` occurs
once (N = 1), and the index 0 lies outside [1, 1]; yet the call does not
fail — `new_index = -1` selects the last occurrence through Python's
negative indexing and its text is returned. -/
theorem get_data_index_zero_cex :
    (findByName "b" treeB1).length = 1 ∧
    get_data_from_xml_tag treeB1 "b" 0 = Except.ok (some "t") :=
  ⟨rfl, rfl⟩

/-- Claim C3 (amended): with N occurrences of the tag, an index k with
1 ≤ k ≤ N returns the text of the k-th occurrence in document order
(1-based); an index above N or below 1-N raises IndexError; but an index
i with 1-N ≤ i ≤ 0 does not fail — Python's negative list indexing makes
it return the text of occurrence N+i instead. -/
theorem get_data_indexing_amended (xml : XmlNode) (tag : String) :
    (∀ (k : Nat) (m : XmlNode), 1 ≤ k →
      (findByName tag xml)[k - 1]? = some m →
      get_data_from_xml_tag xml tag (k : Int) = Except.ok m.text) ∧
    (∀ i : Int, (((findByName tag xml).length : Int) < i ∨
        i < 1 - ((findByName tag xml).length : Int)) →
      get_data_from_xml_tag xml tag i =
        Except.error "IndexError: list index out of range") ∧
    (∀ (i : Int) (m : XmlNode),
      1 - ((findByName tag xml).length : Int) ≤ i → i ≤ 0 →
      (findByName tag xml)[(((findByName tag xml).length : Int) + i - 1).toNat]?
        = some m →
      get_data_from_xml_tag xml tag i = Except.ok m.text) := by
  refine ⟨?_, ?_, ?_⟩
  · intro k m hk hm
    simp only [get_data_from_xml_tag, pyIndex]
    have h1 : ¬ ((k : Int) - 1 < 0) := by omega
    rw [if_neg h1]
    have h2 : (0 : Int) ≤ (k : Int) - 1 := by omega
    rw [if_pos h2]
    have h3 : ((k : Int) - 1).toNat = k - 1 := by omega
    rw [h3, hm]
  · intro i hi
    simp only [get_data_from_xml_tag, pyIndex]
    rcases hi with hgt | hlt
    · have h1 : ¬ (i - 1 < 0) := by omega
      rw [if_neg h1]
      have h2 : (0 : Int) ≤ i - 1 := by omega
      rw [if_pos h2]
      have h3 : (findByName tag xml).length ≤ (i - 1).toNat := by omega
      rw [List.getElem?_eq_none h3]
    · have h1 : i - 1 < 0 := by omega
      rw [if_pos h1]
      have h2 : ¬ ((0 : Int) ≤ i - 1 + ((findByName tag xml).length : Int)) := by
        omega
      rw [if_neg h2]
  · intro i m h1n h0 hm
    simp only [get_data_from_xml_tag, pyIndex]
    have h1 : i - 1 < 0 := by omega
    rw [if_pos h1]
    have h2 : (0 : Int) ≤ i - 1 + ((findByName tag xml).length : Int) := by
      omega
    rw [if_pos h2]
    have h3 : (i - 1 + ((findByName tag xml).length : Int)).toNat =
        (((findByName tag xml).length : Int) + i - 1).toNat := by omega
    rw [h3, hm]

/-- Witness for the amended claim C3 on `<a><b>1</b><b>2</b><b>3</b></a>`
(N = 3): index 2 returns "2"; index 4 and index -3 raise IndexError;
index 0 returns "3" (the last occurrence) instead of failing. -/
theorem get_data_indexing_amended_witness :
    get_data_from_xml_tag treeBBB "b" 2 = Except.ok (some "2") ∧
    get_data_from_xml_tag treeBBB "b" 4 =
      Except.error "IndexError: list index out of range" ∧
    get_data_from_xml_tag treeBBB "b" (-3) =
      Except.error "IndexError: list index out of range" ∧
    get_data_from_xml_tag treeBBB "b" 0 = Except.ok (some "3") := by
  have h := get_data_indexing_amended treeBBB "b"
  refine ⟨?_, ?_, ?_, ?_⟩
  · exact h.1 2 (XmlNode.elem "b" (some "2") []) (by decide) rfl
  · exact h.2.1 4 (Or.inl (by decide))
  · exact h.2.1 (-3) (Or.inr (by decide))
  · exact h.2.2 0 (XmlNode.elem "b" (some "3") []) (by decide) (by decide) rfl

/-- Claim C2 (code evaluation at the failing input): converting the
spec's own example `<a><b>1</b><b>2</b><c>3</c></a>` does not yield
{b: [1, 2], c: 3}. At the second `<b>` the source evaluates
`result[key].copy()` with the stored value being the string "1", and
Python `str` has no `copy` method, so the keyword raises AttributeError
instead of building the two-element list. -/
theorem convert_response_dict_repeated_text_raises :
    convert_response_dict treeBBC =
      Except.error "AttributeError: 'str' object has no attribute 'copy'" :=
  rfl

theorem b64index_alphabet : ∀ i : Nat, i < 64 →
    b64index (b64alphabet i) = some i := by decide

theorem b64alphabet_ne_61 : ∀ i : Nat, i < 64 → ¬ b64alphabet i = 61 := by
  decide

theorem b64encode_mem_pass (bs : List Nat) (h : ∀ b ∈ bs, b < 256) :
    ∀ c ∈ b64encode bs, ((b64index c).isSome || c = 61) = true := by
  induction bs using b64encode.induct with
  | case1 => simp [b64encode]
  | case2 b1 =>
    have hb1 : b1 < 256 := h b1 (by simp)
    intro c hc
    simp only [b64encode, List.mem_cons, List.not_mem_nil, or_false] at hc
    rcases hc with rfl | rfl | rfl | rfl
    · simp [b64index_alphabet (b1 / 4) (by omega)]
    · simp [b64index_alphabet (b1 % 4 * 16) (by omega)]
    · simp
    · simp
  | case3 b1 b2 =>
    have hb1 : b1 < 256 := h b1 (by simp)
    have hb2 : b2 < 256 := h b2 (by simp)
    intro c hc
    simp only [b64encode, List.mem_cons, List.not_mem_nil, or_false] at hc
    rcases hc with rfl | rfl | rfl | rfl
    · simp [b64index_alphabet (b1 / 4) (by omega)]
    · simp [b64index_alphabet (b1 % 4 * 16 + b2 / 16) (by omega)]
    · simp [b64index_alphabet (b2 % 16 * 4) (by omega)]
    · simp
  | case4 b1 b2 b3 rest ih =>
    have hb1 : b1 < 256 := h b1 (by simp)
    have hb2 : b2 < 256 := h b2 (by simp)
    have hb3 : b3 < 256 := h b3 (by simp)
    have hrest : ∀ b ∈ rest, b < 256 := fun b hb => h b (by simp [hb])
    intro c hc
    simp only [b64encode, List.mem_cons] at hc
    rcases hc with rfl | rfl | rfl | rfl | hc
    · simp [b64index_alphabet (b1 / 4) (by omega)]
    · simp [b64index_alphabet (b1 % 4 * 16 + b2 / 16) (by omega)]
    · simp [b64index_alphabet (b2 % 16 * 4 + b3 / 64) (by omega)]
    · simp [b64index_alphabet (b3 % 64) (by omega)]
    · exact ih hrest c hc

theorem b64decodeGroups_encode (bs : List Nat) (h : ∀ b ∈ bs, b < 256) :
    b64decodeGroups (b64encode bs) = Except.ok bs := by
  induction bs using b64encode.induct with
  | case1 => rfl
  | case2 b1 =>
    have hb1 : b1 < 256 := h b1 (by simp)
    have ha := b64index_alphabet (b1 / 4) (by omega)
    have hb := b64index_alphabet (b1 % 4 * 16) (by omega)
    simp [b64encode, b64decodeGroups, ha, hb]
    omega
  | case3 b1 b2 =>
    have hb1 : b1 < 256 := h b1 (by simp)
    have hb2 : b2 < 256 := h b2 (by simp)
    have ha := b64index_alphabet (b1 / 4) (by omega)
    have hb := b64index_alphabet (b1 % 4 * 16 + b2 / 16) (by omega)
    have hc := b64index_alphabet (b2 % 16 * 4) (by omega)
    have hc61 := b64alphabet_ne_61 (b2 % 16 * 4) (by omega)
    simp [b64encode, b64decodeGroups, ha, hb, hc, hc61]
    omega
  | case4 b1 b2 b3 rest ih =>
    have hb1 : b1 < 256 := h b1 (by simp)
    have hb2 : b2 < 256 := h b2 (by simp)
    have hb3 : b3 < 256 := h b3 (by simp)
    have hrest : ∀ b ∈ rest, b < 256 := fun b hb => h b (by simp [hb])
    have ha := b64index_alphabet (b1 / 4) (by omega)
    have hb := b64index_alphabet (b1 % 4 * 16 + b2 / 16) (by omega)
    have hc := b64index_alphabet (b2 % 16 * 4 + b3 / 64) (by omega)
    have hd := b64index_alphabet (b3 % 64) (by omega)
    have hc61 := b64alphabet_ne_61 (b2 % 16 * 4 + b3 / 64) (by omega)
    have hd61 := b64alphabet_ne_61 (b3 % 64) (by omega)
    simp [b64encode, b64decodeGroups, ha, hb, hc, hd, hc61, hd61,
      ih hrest]
    omega

theorem b64decode_encode (bs : List Nat) (h : ∀ b ∈ bs, b < 256) :
    b64decode (b64encode bs) = Except.ok bs := by
  unfold b64decode
  rw [List.filter_eq_self.mpr (b64encode_mem_pass bs h)]
  exact b64decodeGroups_encode bs h

theorem char_toNat_lt (c : Char) : c.toNat < 1114112 := by
  rcases c.valid with hv | hv
  · exact Nat.lt_trans hv (by norm_num)
  · exact hv.2

theorem utf8EncodeChar_lt (n : Nat) (h : n < 1114112) :
    ∀ b ∈ utf8EncodeChar n, b < 256 := by
  intro b hb
  unfold utf8EncodeChar at hb
  split at hb
  · simp at hb
    omega
  · split at hb
    · simp at hb
      rcases hb with rfl | rfl <;> omega
    · split at hb
      · simp at hb
        rcases hb with rfl | rfl | rfl <;> omega
      · simp at hb
        rcases hb with rfl | rfl | rfl | rfl <;> omega

theorem utf8Encode_lt (cs : List Char) : ∀ b ∈ utf8Encode cs, b < 256 := by
  induction cs with
  | nil => simp [utf8Encode]
  | cons c cs ih =>
    intro b hb
    simp only [utf8Encode, List.mem_append] at hb
    rcases hb with hb | hb
    · exact utf8EncodeChar_lt c.toNat (char_toNat_lt c) b hb
    · exact ih b hb


theorem charOfNat_eq (n : Nat) (c : Char) (h : n = c.toNat) :
    Char.ofNat n = c := by
  rw [h, Char.ofNat_toNat]

theorem isContB_true (b2 : Nat) (h1 : 128 ≤ b2) (h2 : b2 < 192) :
    isContB (some b2) = true := by
  simp [isContB]
  omega

theorem utf8DecodeIgnore_encodeChar (c : Char) (rest : List Nat) :
    utf8DecodeIgnore (utf8EncodeChar c.toNat ++ rest) =
      c :: utf8DecodeIgnore rest := by
  have hv := char_toNat_lt c
  by_cases h1 : c.toNat < 128
  · simp only [utf8EncodeChar, if_pos h1, List.cons_append, List.nil_append,
      utf8DecodeIgnore, if_pos h1, Char.ofNat_toNat]
  · by_cases h2 : c.toNat < 2048
    · have ha : ¬ (192 + c.toNat / 64 < 128) := by omega
      have hb : 194 ≤ 192 + c.toNat / 64 ∧ 192 + c.toNat / 64 < 224 :=
        ⟨by omega, by omega⟩
      have hcont := isContB_true (128 + c.toNat % 64) (by omega) (by omega)
      simp only [utf8EncodeChar, if_neg h1, if_pos h2, List.cons_append,
        List.nil_append, utf8DecodeIgnore, List.head?_cons, List.tail_cons,
        ha, hb, hcont, contVal, and_self, if_true, if_false, ite_true,
        ite_false, not_false_eq_true]
      simp only [List.cons.injEq]
      exact ⟨charOfNat_eq _ c (by omega), trivial⟩
    · by_cases h3 : c.toNat < 65536
      · have ha : ¬ (224 + c.toNat / 4096 < 128) := by omega
        have hb : ¬ (194 ≤ 224 + c.toNat / 4096 ∧
            224 + c.toNat / 4096 < 224) := by omega
        have hc : 224 ≤ 224 + c.toNat / 4096 ∧
            224 + c.toNat / 4096 < 240 := ⟨by omega, by omega⟩
        have hcont1 := isContB_true (128 + c.toNat / 64 % 64)
          (by omega) (by omega)
        have hcont2 := isContB_true (128 + c.toNat % 64) (by omega) (by omega)
        simp only [utf8EncodeChar, if_neg h1, if_neg h2, if_pos h3,
          List.cons_append, List.nil_append, utf8DecodeIgnore,
          List.head?_cons, List.tail_cons, ha, hb, hc, hcont1, hcont2,
          contVal, Bool.and_self, Bool.true_and, and_self, if_true,
          if_false, ite_true, ite_false, not_false_eq_true]
        simp only [List.cons.injEq]
        exact ⟨charOfNat_eq _ c (by omega), trivial⟩
      · have ha : ¬ (240 + c.toNat / 262144 < 128) := by omega
        have hb : ¬ (194 ≤ 240 + c.toNat / 262144 ∧
            240 + c.toNat / 262144 < 224) := by omega
        have hc : ¬ (224 ≤ 240 + c.toNat / 262144 ∧
            240 + c.toNat / 262144 < 240) := by omega
        have hd : 240 ≤ 240 + c.toNat / 262144 ∧
            240 + c.toNat / 262144 < 245 := ⟨by omega, by omega⟩
        have hcont1 := isContB_true (128 + c.toNat / 4096 % 64)
          (by omega) (by omega)
        have hcont2 := isContB_true (128 + c.toNat / 64 % 64)
          (by omega) (by omega)
        have hcont3 := isContB_true (128 + c.toNat % 64) (by omega) (by omega)
        simp only [utf8EncodeChar, if_neg h1, if_neg h2, if_neg h3,
          List.cons_append, List.nil_append, utf8DecodeIgnore,
          List.head?_cons, List.tail_cons, ha, hb, hc, hd, hcont1, hcont2,
          hcont3, contVal, Bool.and_self, Bool.true_and, and_self, if_true,
          if_false, ite_true, ite_false, not_false_eq_true]
        simp only [List.cons.injEq]
        exact ⟨charOfNat_eq _ c (by omega), trivial⟩

theorem utf8DecodeIgnore_encode (cs : List Char) :
    utf8DecodeIgnore (utf8Encode cs) = cs := by
  induction cs with
  | nil => simp [utf8Encode, utf8DecodeIgnore]
  | cons c cs ih =>
    show utf8DecodeIgnore (utf8EncodeChar c.toNat ++ utf8Encode cs) = c :: cs
    rw [utf8DecodeIgnore_encodeChar, ih]

/-- Claim C8: for every UTF-8 text (every Lean `String` is a sequence of
unicode scalar values, hence valid UTF-8 text), applying `decode_base64`
("Decode Base64") to the base64 encoding of the text's UTF-8 bytes gives
the text back: decode(encode(x)) = x. -/
theorem decode_base64_roundtrip (s : String) :
    decode_base64 (b64encode (utf8Encode s.data)) = Except.ok s.data := by
  have hb := b64decode_encode (utf8Encode s.data) (utf8Encode_lt s.data)
  simp [decode_base64, hb, utf8DecodeIgnore_encode]
